import Mathlib

/-!
Verification of the CMU_Builder event pipeline (combiner.py, recommendations.py).

Timestamps are modelled as integers counting minutes since the Unix epoch
(UTC).  Dataframes are modelled as a column list plus rows of association
lists from column names to cells.  All recursion is structural so that
concrete instances evaluate by `decide`/`rfl`.
-/

namespace CMUBuilder

/-! ## Calendar arithmetic -/

/-- Days since 1970-01-01 of the civil date (y, m, d) (Gregorian, proleptic). -/
def daysFromCivil (y m d : Int) : Int :=
  let y2 : Int := if m ≤ 2 then y - 1 else y
  let era : Int := y2.ediv 400
  let yoe : Int := y2 - era * 400
  let mp : Int := (m + 9).emod 12
  let doy : Int := (153 * mp + 2).ediv 5 + d - 1
  let doe : Int := yoe * 365 + yoe.ediv 4 - yoe.ediv 100 + doy
  era * 146097 + doe - 719468

/-- Inverse of `daysFromCivil`. -/
def civilFromDays (z0 : Int) : Int × Int × Int :=
  let z : Int := z0 + 719468
  let era : Int := z.ediv 146097
  let doe : Int := z - era * 146097
  let yoe : Int := (doe - doe.ediv 1460 + doe.ediv 36524 - doe.ediv 146096).ediv 365
  let y : Int := yoe + era * 400
  let doy : Int := doe - (365 * yoe + yoe.ediv 4 - yoe.ediv 100)
  let mp : Int := (5 * doy + 2).ediv 153
  let d : Int := doy - (153 * mp + 2).ediv 5 + 1
  let m : Int := if mp < 10 then mp + 3 else mp - 9
  (if m ≤ 2 then y + 1 else y, m, d)

/-- Weekday of a day number, Monday = 0 (Python `date.weekday()`). -/
def weekdayOfDays (days : Int) : Int := (days + 3).emod 7

/-- Day number of the first Sunday of the given month. -/
def firstSundayOfMonth (y m : Int) : Int :=
  let d1 := daysFromCivil y m 1
  d1 + (6 - weekdayOfDays d1).emod 7

/-- US DST start for a year: 2:00 local on the second Sunday of March,
as minutes since the epoch in local standard reading. -/
def dstStartLocal (y : Int) : Int := (firstSundayOfMonth y 3 + 7) * 1440 + 120

/-- US DST end for a year: 2:00 local (EDT) on the first Sunday of November. -/
def dstEndLocal (y : Int) : Int := firstSundayOfMonth y 11 * 1440 + 120

/-- Offset of US/Eastern from UTC, in minutes, for a naive local wall-clock
reading (minutes since epoch): -240 during DST, -300 otherwise. -/
def easternOffsetForLocal (t : Int) : Int :=
  let y := (civilFromDays (t.ediv 1440)).1
  if dstStartLocal y ≤ t ∧ t < dstEndLocal y then -240 else -300

/-- Offset of US/Eastern from UTC, in minutes, at a UTC instant. -/
def easternOffsetForUTC (u : Int) : Int :=
  let y := (civilFromDays (u.ediv 1440)).1
  if dstStartLocal y + 300 ≤ u ∧ u < dstEndLocal y + 240 then -240 else -300

/-- Convert a UTC instant to the Eastern wall-clock reading
(`Timestamp.tz_convert('US/Eastern')`). -/
def utcToEastern (u : Int) : Int := u + easternOffsetForUTC u

/-- Localize a naive Eastern wall-clock reading to a UTC instant
(`Timestamp.tz_localize('US/Eastern').tz_convert('UTC')`). -/
def easternLocalToUTC (t : Int) : Int := t - easternOffsetForLocal t

/-! ## Character-list string utilities (structural, kernel-reducible) -/

/-- Strip leading and trailing whitespace (`str.strip`). -/
def chTrim (l : List Char) : List Char :=
  ((l.dropWhile Char.isWhitespace).reverse.dropWhile Char.isWhitespace).reverse

def strTrim (s : String) : String := ⟨chTrim s.data⟩

/-- Does `pat` occur as a contiguous sublist of `s` (`pat in s`)? -/
def listContainsSub (pat : List Char) : List Char → Bool
  | [] => pat.isEmpty
  | c :: rest => pat.isPrefixOf (c :: rest) || listContainsSub pat rest

def strContainsSub (pat s : String) : Bool := listContainsSub pat.data s.data

/-- Replace every (non-overlapping, left-to-right) occurrence of `pat` by
`repl` (`str.replace`); `fuel` bounds the recursion. -/
def replaceSubAux (pat repl : List Char) : Nat → List Char → List Char
  | 0, s => s
  | fuel + 1, s =>
    match s with
    | [] => []
    | c :: rest =>
      if !pat.isEmpty && pat.isPrefixOf s then
        repl ++ replaceSubAux pat repl fuel (s.drop pat.length)
      else
        c :: replaceSubAux pat repl fuel rest

def replaceSub (pat repl s : List Char) : List Char := replaceSubAux pat repl s.length s

/-- Split at the first occurrence of `sep` (`str.split(sep, 1)` when it
yields two pieces); `none` when `sep` does not occur. -/
def splitOnce (sep : Char) : List Char → Option (List Char × List Char)
  | [] => none
  | c :: rest =>
    if c == sep then some ([], rest)
    else (splitOnce sep rest).map (fun p => (c :: p.1, p.2))

/-- Split at every occurrence of `sep`. -/
def splitAllAux (sep : Char) : List Char → List Char → List (List Char)
  | [], acc => [acc.reverse]
  | c :: rest, acc =>
    if c == sep then acc.reverse :: splitAllAux sep rest []
    else splitAllAux sep rest (c :: acc)

def splitAll (sep : Char) (l : List Char) : List (List Char) := splitAllAux sep l []

/-- Split on runs of whitespace, discarding empty tokens. -/
def tokenizeAux : List Char → List Char → List (List Char)
  | [], acc => if acc.isEmpty then [] else [acc.reverse]
  | c :: rest, acc =>
    if c.isWhitespace then
      if acc.isEmpty then tokenizeAux rest [] else acc.reverse :: tokenizeAux rest []
    else tokenizeAux rest (c :: acc)

def tokenize (l : List Char) : List (List Char) := tokenizeAux l []

/-- Value of a digit list (assumed all digits). -/
def digitsVal : List Char → Nat → Nat
  | [], acc => acc
  | c :: rest, acc => digitsVal rest (acc * 10 + (c.toNat - 48))

/-- Parse a non-empty all-digit list. -/
def parseNatAll (l : List Char) : Option Nat :=
  if !l.isEmpty && l.all Char.isDigit then some (digitsVal l 0) else none

/-- Decimal digits of a natural number (with recursion fuel). -/
def natDigitsAux : Nat → Nat → List Char
  | 0, _ => []
  | fuel + 1, n =>
    if n < 10 then [Char.ofNat (48 + n)]
    else natDigitsAux fuel (n / 10) ++ [Char.ofNat (48 + n % 10)]

def natRepr (n : Nat) : String := ⟨natDigitsAux (n + 1) n⟩

/-- Zero-pad a (nonnegative) integer to two digits (`%02d`). -/
def pad2 (n : Int) : String :=
  if n < 10 then "0" ++ natRepr n.toNat else natRepr n.toNat

/-- Render a day number as `YYYY-MM-DD` (`strftime('%Y-%m-%d')`). -/
def fmtDate (day : Int) : String :=
  let c := civilFromDays day
  natRepr c.1.toNat ++ "-" ++ pad2 c.2.1 ++ "-" ++ pad2 c.2.2

/-- Render a wall-clock minute count as `YYYY-MM-DD HH:MM`. -/
def fmtDateTime (t : Int) : String :=
  let day := t.ediv 1440
  let tod := t.emod 1440
  fmtDate day ++ " " ++ pad2 (tod.ediv 60) ++ ":" ++ pad2 (tod.emod 60)

/-- Render the `HH:MM` part only. -/
def fmtHM (t : Int) : String :=
  let tod := t.emod 1440
  pad2 (tod.ediv 60) ++ ":" ++ pad2 (tod.emod 60)

/-! ## Cells, rows, dataframes -/

/-- A dataframe cell: missing (`NaN`/`NaT`/`None`), a string, a timezone-naive
timestamp, or a timezone-aware UTC timestamp (minutes since the epoch). -/
inductive Cell where
  | na : Cell
  | str : String → Cell
  | naive : Int → Cell
  | ts : Int → Cell
deriving DecidableEq, Repr

/-- Models `pd.notna`. -/
def Cell.notna : Cell → Bool
  | .na => false
  | _ => true

/-- A row: an association list from column names to cells. -/
abbrev Row := List (String × Cell)

/-- Models `row.get(k)` / `row[k]` for a present column: `na` when the key is absent
(`Series.get` returns `None`, which is na for every use modelled here). -/
def rowGet (r : Row) (k : String) : Cell :=
  match r.find? (fun p => p.1 == k) with
  | some p => p.2
  | none => .na

def rowKeys (r : Row) : List String := r.map Prod.fst

/-- Set (or append) a key in a row. -/
def rowSet (r : Row) (k : String) (v : Cell) : Row :=
  if r.any (fun p => p.1 == k) then
    r.map (fun p => if p.1 == k then (k, v) else p)
  else r ++ [(k, v)]

/-- Remove a key from a row. -/
def rowDrop (r : Row) (k : String) : Row := r.filter (fun p => p.1 != k)

/-- A dataframe: ordered column names plus rows. -/
structure DF where
  cols : List String
  rows : List Row
deriving DecidableEq, Repr

/-- Models `df.empty`: true when either axis is empty. -/
def DF.isEmpty (df : DF) : Bool := df.rows.isEmpty || df.cols.isEmpty

def DF.hasCol (df : DF) (c : String) : Bool := df.cols.contains c

/-- Models `df[c]`: the cell list of a column; `KeyError` when the column is absent. -/
def DF.getColumn (df : DF) (c : String) : Except String (List Cell) :=
  if df.hasCol c then .ok (df.rows.map (fun r => rowGet r c))
  else .error ("KeyError: " ++ c)

def addColName (cols : List String) (c : String) : List String :=
  if cols.contains c then cols else cols ++ [c]

/-- Models `df[c] = df.apply(f, axis=1)`: set a column from a per-row function. -/
def DF.setColumnMap (df : DF) (c : String) (f : Row → Cell) : DF :=
  ⟨addColName df.cols c, df.rows.map (fun r => rowSet r c (f r))⟩

/-- Models `df[c] = vals`: set a column from a value list (same length as rows). -/
def DF.setColumnList (df : DF) (c : String) (vals : List Cell) : DF :=
  ⟨addColName df.cols c, (df.rows.zip vals).map (fun p => rowSet p.1 c p.2)⟩

def DF.filterRows (df : DF) (p : Row → Bool) : DF := ⟨df.cols, df.rows.filter p⟩

/-- Models `df.dropna(subset=[c])`. -/
def DF.dropnaSubset (df : DF) (c : String) : Except String DF :=
  if df.hasCol c then .ok (df.filterRows (fun r => (rowGet r c).notna))
  else .error ("KeyError: " ++ c)

/-- Models `df[cs]`: column projection, restricting every row to exactly `cs`. -/
def DF.select (df : DF) (cs : List String) : Except String DF :=
  if cs.all df.hasCol then
    .ok ⟨cs, df.rows.map (fun r => cs.map (fun c => (c, rowGet r c)))⟩
  else .error "KeyError: select"

/-- Models `pd.concat(dfs, ignore_index=True)`: union of columns in order of first
appearance, rows concatenated. -/
def concatDFs (dfs : List DF) : DF :=
  ⟨dfs.foldl (fun acc df => df.cols.foldl addColName acc) [],
   (dfs.map DF.rows).flatten⟩

/-- Models `pd.DataFrame(records)`: columns are the union of the record keys. -/
def dfFromRecords (rows : List Row) : DF :=
  ⟨rows.foldl (fun acc r => (rowKeys r).foldl addColName acc) [], rows⟩

/-! ## Modelled pandas datetime parsing

`pd.to_datetime` is an external library; it is modelled here for the string
shapes the repository feeds it: ISO dates (`YYYY-MM-DD`), ISO timestamps with
optional `Z`/`±HH:MM` offset, `DATE TIME` combinations, and the
`MonthName D, YYYY H:MM(am|pm)` shape produced by the natural-language path.
Unrecognized strings coerce to `na` (`errors='coerce'`). -/

/-- Parse a time of day `H:MM`, `H:MM:SS` (seconds must be `00` in this
minute-resolution model), with optional `am`/`pm` suffix, to minutes. -/
def timeOfDayParse (s : String) : Option Int :=
  let l := chTrim s.data
  let (body, ap) :=
    if List.isSuffixOf ['a', 'm'] l then (l.take (l.length - 2), some false)
    else if List.isSuffixOf ['p', 'm'] l then (l.take (l.length - 2), some true)
    else (l, none)
  let body := chTrim body
  let mk : Nat → Nat → Nat → Option Int := fun h m sec =>
    if m ≥ 60 ∨ sec ≠ 0 then none
    else match ap with
      | none => if h ≥ 24 then none else some ((h : Int) * 60 + m)
      | some isPm =>
        if h = 0 ∨ h > 12 then none
        else some (((if isPm then h % 12 + 12 else h % 12 : Nat)) * 60 + (m : Int))
  match splitAll ':' body with
  | [hs, ms] => do mk (← parseNatAll hs) (← parseNatAll ms) 0
  | [hs, ms, ss] => do mk (← parseNatAll hs) (← parseNatAll ms) (← parseNatAll ss)
  | _ => none

/-- Parse an ISO `YYYY-MM-DD` date to a day number. -/
def isoDateParse (l : List Char) : Option Int :=
  match splitAll '-' l with
  | [ys, ms, ds] => do
    let y ← parseNatAll ys
    let m ← parseNatAll ms
    let d ← parseNatAll ds
    if 1 ≤ m ∧ m ≤ 12 ∧ 1 ≤ d ∧ d ≤ 31 then
      some (daysFromCivil y m d)
    else none
  | _ => none

def monthFromName (l : List Char) : Option Int :=
  let s : String := ⟨l⟩
  let names := ["January", "February", "March", "April", "May", "June",
    "July", "August", "September", "October", "November", "December"]
  match names.indexOf? s with
  | some i => some ((i : Int) + 1)
  | none => none

/-- Parse `MonthName D, YYYY` from three tokens. -/
def monthNameDateParse (t1 t2 t3 : List Char) : Option Int := do
  let m ← monthFromName t1
  let dTok := if List.isSuffixOf [','] t2 then t2.take (t2.length - 1) else t2
  let d ← parseNatAll dTok
  let y ← parseNatAll t3
  if 1 ≤ d ∧ d ≤ 31 then some (daysFromCivil y m d) else none

/-- Parse the time half of an ISO timestamp, with optional `Z` or `±HH:MM`
offset.  Returns the minutes within the day and the offset (`none` = naive). -/
def isoTimeParse (l : List Char) : Option (Int × Option Int) :=
  if List.isSuffixOf ['Z'] l then do
    let t ← timeOfDayParse ⟨l.take (l.length - 1)⟩
    some (t, some 0)
  else
    match splitOnce '+' l with
    | some (body, off) => do
      let t ← timeOfDayParse ⟨body⟩
      let o ← timeOfDayParse ⟨off⟩
      some (t, some o)
    | none =>
      match splitOnce '-' l with
      | some (body, off) => do
        let t ← timeOfDayParse ⟨body⟩
        let o ← timeOfDayParse ⟨off⟩
        some (t, some (-o))
      | none => do
        let t ← timeOfDayParse ⟨l⟩
        some (t, none)

/-- Modelled `pd.to_datetime(s)` on a string: a naive or aware cell, or `na`
when unparseable (`errors='coerce'`). -/
def pd_to_datetime_str (s : String) : Cell :=
  let l := chTrim s.data
  match splitOnce 'T' l with
  | some (dpart, tpart) =>
    match isoDateParse dpart, isoTimeParse tpart with
    | some day, some (tod, off) =>
      match off with
      | some o => .ts (day * 1440 + tod - o)
      | none => .naive (day * 1440 + tod)
    | _, _ => .na
  | none =>
    match tokenize l with
    | [d] =>
      match isoDateParse d with
      | some day => .naive (day * 1440)
      | none => .na
    | [d, t] =>
      match isoDateParse d, timeOfDayParse ⟨t⟩ with
      | some day, some tod => .naive (day * 1440 + tod)
      | _, _ => .na
    | [t1, t2, t3] =>
      match monthNameDateParse t1 t2 t3 with
      | some day => .naive (day * 1440)
      | none => .na
    | [t1, t2, t3, t4] =>
      match monthNameDateParse t1 t2 t3, timeOfDayParse ⟨t4⟩ with
      | some day, some tod => .naive (day * 1440 + tod)
      | _, _ => .na
    | _ => .na

/-- Models `pd.to_datetime(x, errors='coerce')` on a cell. -/
def pd_to_datetime_cell (c : Cell) : Cell :=
  match c with
  | .na => .na
  | .str s => pd_to_datetime_str s
  | .naive t => .naive t
  | .ts t => .ts t

/-- Localize a naive value as UTC, keep aware values
(`tz_localize('UTC')` / `tz_convert('UTC')`). -/
def localizeUTCCell (c : Cell) : Cell :=
  match c with
  | .naive t => .ts t
  | c => c

/-- Models `pd.to_datetime(x, errors='coerce', utc=True)` on a string. -/
def pd_to_datetime_utc_str (s : String) : Cell := localizeUTCCell (pd_to_datetime_str s)

/-! ## combiner.py: helper functions -/

/-- Models `safe_timezone_convert` applied to one cell: aware values are converted to
UTC (already UTC here), naive values are UTC-localized. -/
def safe_timezone_convert_cell (c : Cell) : Cell :=
  match c with
  | .ts t => .ts t
  | .naive t => .ts t
  | c => c

def tzSuffixes : List String :=
  ["EDT", "EST", "CDT", "CST", "MDT", "MST", "PDT", "PST", "UTC"]

/-- Models the regex removal `re.sub(r'^[A-Za-z]+,\s*', '', date_part)`. -/
def stripLeadingWeekdayName (l : List Char) : List Char :=
  let alpha := l.takeWhile Char.isAlpha
  if alpha.isEmpty then l
  else
    match l.drop alpha.length with
    | ',' :: rest => rest.dropWhile Char.isWhitespace
    | _ => l

/-- The wall-clock stage of `parse_natural_language_datetime`: everything the
source does before the final UTC localization, producing the two naive
parses (or `na` on any failure).  `year` models `datetime.now().year`. -/
def parseNLWall (year : Int) (date_str : String) : Cell × Cell :=
  match splitOnce '·' date_str.data with
  | none => (.na, .na)
  | some (dp, tp) =>
    let date_part := chTrim dp
    let time_part := chTrim tp
    let time_part := tzSuffixes.foldl (fun t tz => chTrim (replaceSub tz.data [] t)) time_part
    if !time_part.contains '-' then (.na, .na)
    else
      match splitOnce '-' time_part with
      | none => (.na, .na)
      | some (st0, et0) =>
        let start_time_str := chTrim st0
        let end_time_str := chTrim et0
        let hasAmPm : List Char → Bool := fun l =>
          listContainsSub ['a', 'm'] l || listContainsSub ['p', 'm'] l
        let start_time_str :=
          if hasAmPm end_time_str && !hasAmPm start_time_str then
            start_time_str ++
              (if listContainsSub ['a', 'm'] end_time_str then ['a', 'm'] else ['p', 'm'])
          else start_time_str
        let date_clean := stripLeadingWeekdayName date_part
        let date_clean :=
          if listContainsSub (natRepr year.toNat).data date_clean then date_clean
          else date_clean ++ (", " ++ natRepr year.toNat).data
        (pd_to_datetime_str ⟨date_clean ++ ' ' :: start_time_str⟩,
         pd_to_datetime_str ⟨date_clean ++ ' ' :: end_time_str⟩)

/-- Models `parse_natural_language_datetime`: parse the natural-language shape and
localize each successfully parsed half to UTC (`tz_localize('UTC')`). -/
def parse_natural_language_datetime (year : Int) (date_str : String) : Cell × Cell :=
  let w := parseNLWall year date_str
  (localizeUTCCell w.1, localizeUTCCell w.2)

/-- Models `parse_datetime_efficiently`, on a cell; `year` models
`datetime.now().year` used by the natural-language path. -/
def parse_datetime_efficiently (year : Int) (c : Cell) : Cell × Cell :=
  match c with
  | .na => (.na, .na)
  | .ts t => (.ts t, .na)
  | .naive t => (.ts t, .na)
  | .str s0 =>
    let date_str := strTrim s0
    if date_str.data.isEmpty then (.na, .na)
    else if (pd_to_datetime_utc_str date_str).notna then (pd_to_datetime_utc_str date_str, .na)
    else if date_str.data.contains '→' then
      match splitOnce '→' date_str.data with
      | some (a, b) => (pd_to_datetime_utc_str ⟨chTrim a⟩, pd_to_datetime_utc_str ⟨chTrim b⟩)
      | none => (.na, .na)
    else if date_str.data.contains '·' && date_str.data.contains '-' then
      parse_natural_language_datetime year date_str
    else (.na, .na)

/-- Models `create_time_range_display`: Eastern-time display string, absent when
`start` is absent. -/
def create_time_range_display (s e : Cell) : Option String :=
  match s with
  | .ts t0 =>
    let sEt := utcToEastern t0
    match e with
    | .ts t1 =>
      let eEt := utcToEastern t1
      if sEt.ediv 1440 = eEt.ediv 1440 then
        some (fmtDateTime sEt ++ " - " ++ fmtHM eEt ++ " ET")
      else
        some (fmtDateTime sEt ++ " - " ++ fmtDateTime eEt ++ " ET")
    | _ => some (fmtDateTime sEt ++ " ET")
  | _ => none

/-! ## combiner.py: cleaning functions -/

def renameKey (mapping : List (String × String)) (k : String) : String :=
  match mapping.find? (fun p => p.1 == k) with
  | some p => p.2
  | none => k

def isStrOrNa : Cell → Bool
  | .na => true
  | .str _ => true
  | _ => false

/-- Models `fillna('').astype(str).str.strip()` on one cell of an object column. -/
def cleanStrCell : Cell → Cell
  | .na => .str ""
  | .str s => .str (strTrim s)
  | c => c

/-- Models `standardize_columns`: rename columns, then strip/fill the string
(object-dtype, i.e. all-string-or-missing) columns. -/
def standardize_columns (df : DF) (mapping : List (String × String)) : DF :=
  let renamed : DF :=
    ⟨df.cols.map (renameKey mapping),
     df.rows.map (fun r => r.map (fun p => (renameKey mapping p.1, p.2)))⟩
  let objCols := renamed.cols.filter
    (fun c => renamed.rows.all (fun r => isStrOrNa (rowGet r c)))
  ⟨renamed.cols,
   renamed.rows.map (fun r =>
     objCols.foldl (fun r2 c => rowSet r2 c (cleanStrCell (rowGet r2 c))) r)⟩

def googleColumnMapping : List (String × String) :=
  [("Summary", "calendar_event"), ("Start", "start"), ("End", "end"),
   ("Location", "location"), ("Description", "description")]

/-- Regex `T.*:`: a `:` occurring after a `T`. -/
def hasTThenColon (l : List Char) : Bool :=
  match splitOnce 'T' l with
  | some (_, rest) => rest.contains ':'
  | none => false

/-- Regex `[-+]\d2:\d2` (a UTC-offset shape). -/
def hasOffsetPat : List Char → Bool
  | [] => false
  | a :: rest =>
    (match rest with
     | b :: c :: d :: e :: f :: _ =>
       (a == '+' || a == '-') && b.isDigit && c.isDigit && d == ':' && e.isDigit && f.isDigit
     | _ => false) || hasOffsetPat rest

/-- The `has_time` mask of `clean_google_calendar_df`
(`str.contains(..., na=False)`). -/
def startHasTime (c : Cell) : Bool :=
  match c with
  | .str s => hasTThenColon s.data && (hasOffsetPat s.data || s.data.contains 'Z')
  | _ => false

/-- Models `pd.to_datetime(df[c], errors='coerce')` then `safe_timezone_convert`,
applied only when the column is present. -/
def toDatetimeColIfPresent (df : DF) (c : String) : DF :=
  if df.hasCol c then
    ⟨df.cols,
     df.rows.map (fun r =>
       rowSet r c (safe_timezone_convert_cell (pd_to_datetime_cell (rowGet r c))))⟩
  else df

def googleCanonicalCols : List String :=
  ["start", "end", "calendar_event", "description", "location", "url"]

def clean_google_calendar_df (df : DF) : Except String DF :=
  if df.isEmpty then .ok ⟨googleCanonicalCols, []⟩
  else do
    let cleaned := standardize_columns df googleColumnMapping
    let _ ← cleaned.getColumn "start"
    let cleaned := cleaned.filterRows (fun r => startHasTime (rowGet r "start"))
    let cleaned := toDatetimeColIfPresent cleaned "start"
    let cleaned := toDatetimeColIfPresent cleaned "end"
    let _ ← cleaned.getColumn "calendar_event"
    let cleaned := cleaned.setColumnMap "calendar_event"
      (fun r =>
        match rowGet r "calendar_event" with
        | .str "" => .str "Untitled Event"
        | c => c)
    let cleaned := cleaned.setColumnMap "url" (fun _ => .str "")
    let cleaned ← cleaned.dropnaSubset "start"
    cleaned.select googleCanonicalCols

/-- Models `str(x)` for the location fields (strings or missing in practice). -/
def cellLocStr : Cell → String
  | .str s => s
  | _ => ""

def format_location_vectorized (r : Row) : Cell :=
  let venue := if (rowGet r "venue").notna then cellLocStr (rowGet r "venue") else ""
  let address := if (rowGet r "address").notna then cellLocStr (rowGet r "address") else ""
  let parts := [venue, address].filter (fun p => !(strTrim p).isEmpty)
  .str (String.intercalate "- " parts)

def fillnaCell (c repl : Cell) : Cell :=
  match c with
  | .na => repl
  | c => c

def webCanonicalCols : List String :=
  ["start", "end", "scraped_event", "description", "location", "url"]

def clean_webscraping_df (nowYear : Int) (df : DF) : Except String DF :=
  if df.isEmpty then .ok ⟨webCanonicalCols, []⟩
  else do
    let dt ← df.getColumn "date_time"
    let results := dt.map (parse_datetime_efficiently nowYear)
    let cleaned := df.setColumnList "start" (results.map Prod.fst)
    let cleaned := cleaned.setColumnList "end" (results.map Prod.snd)
    let cleaned := cleaned.setColumnMap "location" format_location_vectorized
    let titles ← cleaned.getColumn "title"
    let cleaned := cleaned.setColumnList "scraped_event"
      (titles.map (fillnaCell · (.str "Untitled Event")))
    let links ← cleaned.getColumn "link"
    let cleaned := cleaned.setColumnList "description" (links.map (fillnaCell · (.str "")))
    let cleaned := cleaned.setColumnList "url" (links.map (fillnaCell · (.str "")))
    let cleaned ← cleaned.dropnaSubset "start"
    cleaned.select webCanonicalCols

def weekday_map : List (String × Int) :=
  [("Mon", 0), ("Tue", 1), ("Wed", 2), ("Thu", 3), ("Fri", 4), ("Sat", 5), ("Sun", 6)]

/-- Models the `.date()` call on a parsed term boundary. -/
def cellDateDay : Cell → Option Int
  | .naive t => some (t.ediv 1440)
  | .ts t => some (t.ediv 1440)
  | _ => none

/-- Models `pd.to_datetime(f"{d:%Y-%m-%d} {t}", errors='coerce')`: the fixed
ISO date combined with a time-of-day string. -/
def parseDateTimeCombined (day : Int) (t : String) : Cell :=
  match timeOfDayParse t with
  | some m => .naive (day * 1440 + m)
  | none => .na

/-- The dates visited by the `while current_date <= term_end.date()` loop,
stepping seven days; the fuel bounds the iteration count. -/
def weeklyDatesAux : Nat → Int → Int → List Int
  | 0, _, _ => []
  | fuel + 1, cur, last =>
    if cur ≤ last then cur :: weeklyDatesAux fuel (cur + 7) last else []

def weeklyDates (first last : Int) : List Int :=
  weeklyDatesAux ((last - first).toNat + 1) first last

def generate_class_occurrences_optimized (row : Row) (current_time : Int) : List Row :=
  match cellDateDay (pd_to_datetime_cell (rowGet row "term_start_date")),
        cellDateDay (pd_to_datetime_cell (rowGet row "term_end_date")) with
  | some startDay, some endDay =>
    match weekday_map.find? (fun p => Cell.str p.1 == rowGet row "weekday") with
    | none => []
    | some wk =>
      let target_weekday := wk.2
      let days_ahead0 := target_weekday - weekdayOfDays startDay
      let days_ahead := if days_ahead0 < 0 then days_ahead0 + 7 else days_ahead0
      let first_class_date := startDay + days_ahead
      let start_time_str :=
        match rowGet row "start_time_local" with
        | .str s => strTrim s
        | _ => "nan"
      let end_time_str :=
        match rowGet row "end_time_local" with
        | .str s => strTrim s
        | _ => "nan"
      (weeklyDates first_class_date endDay).filterMap (fun d =>
        match parseDateTimeCombined d start_time_str, parseDateTimeCombined d end_time_str with
        | .naive sdt, .naive edt =>
          some (rowSet (rowSet (rowSet row
            "start" (.ts (easternLocalToUTC sdt)))
            "end" (.ts (easternLocalToUTC edt)))
            "occurrence_date" (.str (fmtDate d)))
        | _, _ => none)
  | _, _ => []

def format_cmu_location_optimized (studio campus_area : Cell) : String :=
  let parts : List String :=
    (if studio.notna ∧ ¬(strTrim (cellLocStr studio)).isEmpty then
      [strTrim (cellLocStr studio)] else []) ++
    (if campus_area.notna ∧ ¬(strTrim (cellLocStr campus_area)).isEmpty then
      ["(" ++ strTrim (cellLocStr campus_area) ++ ")"] else [])
  if parts.isEmpty then "CMU Campus" else String.intercalate " " parts

def cmuCanonicalCols : List String :=
  ["start", "end", "scraped_event", "description", "location", "url"]

/-- The `result_df['start'] >= current_time` filter on one cell. -/
def cellGEnow (c : Cell) (now : Int) : Bool :=
  match c with
  | .ts t => now ≤ t
  | _ => false

def clean_cmu_scraper_df (current_time : Int) (df : DF) : Except String DF :=
  if df.isEmpty then .ok ⟨cmuCanonicalCols, []⟩
  else
    let all_occurrences :=
      (df.rows.map (fun r => generate_class_occurrences_optimized r current_time)).flatten
    if all_occurrences.isEmpty then .ok ⟨cmuCanonicalCols, []⟩
    else do
      let result := dfFromRecords all_occurrences
      let result := result.setColumnMap "location"
        (fun r => .str (format_cmu_location_optimized (rowGet r "studio") (rowGet r "campus_area")))
      let names ← result.getColumn "class_name"
      let result := result.setColumnList "scraped_event"
        (names.map (fillnaCell · (.str "Untitled Class")))
      let descs ← result.getColumn "class_description"
      let urls ← result.getColumn "registration_url"
      let result := result.setColumnList "description"
        ((descs.zip urls).map (fun p => fillnaCell p.1 (fillnaCell p.2 (.str ""))))
      let result := result.setColumnList "url" (urls.map (fillnaCell · (.str "")))
      let result := result.filterRows (fun r => cellGEnow (rowGet r "start") current_time)
      result.select cmuCanonicalCols

/-! ## combiner.py: merge and conflict resolution -/

def startKeyCell : Cell → Int
  | .ts t => t
  | .naive t => t
  | _ => 0

def startKey (r : Row) : Int := startKeyCell (rowGet r "start")

/-- Insertion sort by the `start` column (`sort_values('start')`). -/
def insertByStart (r : Row) : List Row → List Row
  | [] => [r]
  | x :: xs => if startKey r ≤ startKey x then r :: x :: xs else x :: insertByStart r xs

def sortRowsByStart (l : List Row) : List Row := l.foldr insertByStart []

def DF.sortByStartDF (df : DF) : Except String DF :=
  if df.hasCol "start" then .ok ⟨df.cols, sortRowsByStart df.rows⟩
  else .error "KeyError: start"

/-- Models `start + timedelta(hours=1)` on a cell. -/
def cellAdd60 : Cell → Cell
  | .ts t => .ts (t + 60)
  | .naive t => .naive (t + 60)
  | c => c

/-- Models `end.fillna(start + timedelta(hours=1))` for one row. -/
def endFilledCell (r : Row) : Cell :=
  fillnaCell (rowGet r "end") (cellAdd60 (rowGet r "start"))

/-- Timestamp `<` on cells; comparisons involving `NaT` are false. -/
def cellLt : Cell → Cell → Bool
  | .ts a, .ts b => a < b
  | .naive a, .naive b => a < b
  | _, _ => false

/-- The overlap test of the conflict resolver:
`cal.start < scraped.end_filled and scraped.start < cal.end_filled`. -/
def overlapsCell (cal s : Row) : Bool :=
  cellLt (rowGet cal "start") (rowGet s "end_filled") &&
  cellLt (rowGet s "start") (rowGet cal "end_filled")

def remove_overlapping_events_optimized (df : DF) : Except String DF :=
  if df.hasCol "calendar_event" && df.hasCol "scraped_event" then
    let calendar_events := df.filterRows (fun r => (rowGet r "calendar_event").notna)
    let scraped_events := df.filterRows (fun r => (rowGet r "scraped_event").notna)
    if calendar_events.rows.isEmpty then .ok df
    else if scraped_events.rows.isEmpty then .ok calendar_events
    else if df.hasCol "end" && df.hasCol "start" then
      let calF := calendar_events.rows.map (fun r => rowSet r "end_filled" (endFilledCell r))
      let scrF := scraped_events.rows.map (fun r => rowSet r "end_filled" (endFilledCell r))
      let non_overlapping := scrF.filter (fun s => !(calF.any (fun cal => overlapsCell cal s)))
      let sortedRows := sortRowsByStart (calF ++ non_overlapping)
      .ok ⟨(addColName df.cols "end_filled").filter (fun c => c != "end_filled"),
           sortedRows.map (fun r => rowDrop r "end_filled")⟩
    else .error "KeyError: end"
  else .error "KeyError: calendar_event"

def finalCols : List String :=
  ["time_range", "scraped_event", "calendar_event", "description", "location", "url"]

/-- One iteration of the data-source loop of `standardize_and_combine_optimized`:
skip absent/empty inputs, clean, skip empty results, null out the other
event-type column. -/
def processSource (df? : Option DF) (cleanF : DF → Except String DF)
    (event_type_calendar : Bool) : Except String (List DF) :=
  match df? with
  | none => .ok []
  | some df =>
    if df.isEmpty then .ok []
    else do
      let cleaned ← cleanF df
      if cleaned.isEmpty then .ok []
      else if event_type_calendar then
        .ok [cleaned.setColumnMap "scraped_event" (fun _ => .na)]
      else
        .ok [cleaned.setColumnMap "calendar_event" (fun _ => .na)]

/-- Models `standardize_and_combine_optimized`.  `nowYear` models
`datetime.now().year` (natural-language year inference); `current_time`
models `pd.Timestamp.now(tz='UTC')` (future-only filtering). -/
def standardize_and_combine_optimized (nowYear current_time : Int)
    (google_df webscrape_df cmu_df : Option DF) : Except String DF := do
  let l1 ← processSource google_df clean_google_calendar_df true
  let l2 ← processSource webscrape_df (clean_webscraping_df nowYear) false
  let l3 ← processSource cmu_df (clean_cmu_scraper_df current_time) false
  let cleaned_dfs := l1 ++ l2 ++ l3
  if cleaned_dfs.isEmpty then .ok ⟨finalCols, []⟩
  else
    let combined := concatDFs cleaned_dfs
    if combined.hasCol "start" && combined.hasCol "end" then do
      let combined := combined.setColumnMap "time_range"
        (fun r =>
          match create_time_range_display (rowGet r "start") (rowGet r "end") with
          | some s => .str s
          | none => .na)
      let combined ← combined.dropnaSubset "time_range"
      let combined ← combined.sortByStartDF
      let final ← remove_overlapping_events_optimized combined
      final.select finalCols
    else .error "KeyError: start"

/-- Models `standardize_and_combine`: the main entry point, delegating to the
optimized version. -/
def standardize_and_combine (nowYear current_time : Int)
    (google_df webscrape_df cmu_df : Option DF) : Except String DF :=
  standardize_and_combine_optimized nowYear current_time google_df webscrape_df cmu_df

/-! ## recommendations.py: FitnessRecommender -/

/-- The mutable preference dictionary of `FitnessRecommender`. -/
structure Preferences where
  preferred_times : List String
  preferred_days : List String
  class_types : List String
  max_classes_per_week : Nat
  min_gap_hours : Nat
deriving DecidableEq, Repr

/-- The defaults installed by `FitnessRecommender.__init__`. -/
def defaultPreferences : Preferences :=
  ⟨["morning", "afternoon", "evening"],
   ["Monday", "Tuesday", "Wednesday", "Thursday", "Friday"],
   [], 5, 1⟩

/-- Python truthiness of an optional list argument (`None` and `[]` falsy). -/
def truthyList (o : Option (List String)) : Bool :=
  match o with
  | some (_ :: _) => true
  | _ => false

/-- Python truthiness of an optional number argument (`None` and `0` falsy). -/
def truthyNat (o : Option Nat) : Bool :=
  match o with
  | some (_ + 1) => true
  | _ => false

/-- Models `FitnessRecommender.set_preferences`: each argument updates its
preference only when truthy. -/
def set_preferences (p : Preferences)
    (preferred_times preferred_days class_types : Option (List String))
    (max_classes_per_week min_gap_hours : Option Nat) : Preferences :=
  let p := if truthyList preferred_times then
    { p with preferred_times := preferred_times.getD [] } else p
  let p := if truthyList preferred_days then
    { p with preferred_days := preferred_days.getD [] } else p
  let p := if truthyList class_types then
    { p with class_types := class_types.getD [] } else p
  let p := if truthyNat max_classes_per_week then
    { p with max_classes_per_week := max_classes_per_week.getD 0 } else p
  if truthyNat min_gap_hours then
    { p with min_gap_hours := min_gap_hours.getD 0 } else p

/-- Models `get_time_of_day`. -/
def get_time_of_day (hour : Int) : String :=
  if 5 ≤ hour ∧ hour < 12 then "morning"
  else if 12 ≤ hour ∧ hour < 17 then "afternoon"
  else if 17 ≤ hour ∧ hour < 22 then "evening"
  else "night"

/-- Models `start_dt.strftime('%A')` from a Python weekday index (Monday = 0). -/
def dayName (wd : Int) : String :=
  if wd = 0 then "Monday"
  else if wd = 1 then "Tuesday"
  else if wd = 2 then "Wednesday"
  else if wd = 3 then "Thursday"
  else if wd = 4 then "Friday"
  else if wd = 5 then "Saturday"
  else "Sunday"

/-- A row of the `calendar_df` passed to the scorer: its `start`/`end`
values with `none` for `NaN`/`NaT`/missing. -/
structure CalEvent where
  start : Option Int
  end_ : Option Int
deriving DecidableEq, Repr

/-- The candidate row passed to the scorer.  `endField` distinguishes a
missing `end` key (`none`, where `.get` substitutes `start + 1h`) from a
present-but-`NaT` value (`some none`). -/
structure EventRow where
  start : Option Int
  endField : Option (Option Int)
  scraped_event : Option String
deriving DecidableEq, Repr

/-- Models `event_row.get('end', event_start + timedelta(hours=1))` passed through
`pd.to_datetime`; `none` is `NaT`. -/
def eventEnd (row : EventRow) (event_start : Int) : Option Int :=
  match row.endField with
  | none => some (event_start + 60)
  | some e => e

/-- One calendar event's conflict test inside the scoring loop: both `start`
and `end` must be present, and the half-open overlap test must hold
(`NaT` comparisons are false). -/
def isConflict (event_start : Int) (event_end : Option Int) (c : CalEvent) : Bool :=
  match c.start, c.end_ with
  | some cal_start, some cal_end =>
    decide (event_start < cal_end) &&
    (match event_end with
     | some ee => decide (ee > cal_start)
     | none => false)
  | _, _ => false

/-- The conflict loop of `calculate_fitness_score`: accumulates the score
delta (−50 per conflict) and the conflict count, front to back. -/
def conflictFold (event_start : Int) (event_end : Option Int)
    (calendar_df : List CalEvent) : Int × Int :=
  calendar_df.foldl
    (fun acc c => if isConflict event_start event_end c then (acc.1 - 50, acc.2 + 1) else acc)
    (0, 0)

/-- The conflict block of `calculate_fitness_score`: −50 per conflicting
calendar event plus the +20 no-conflict bonus, guarded by
`not calendar_df.empty and 'start' in calendar_df.columns` (the block —
bonus included — is skipped entirely when the guard fails). -/
def conflictScorePart (event_start : Int) (event_end : Option Int)
    (calendarHasStart : Bool) (calendar_df : List CalEvent) : Int :=
  if !calendar_df.isEmpty && calendarHasStart then
    let fold := conflictFold event_start event_end calendar_df
    fold.1 + (if fold.2 = 0 then 20 else 0)
  else 0

/-- The non-conflict additive components of `calculate_fitness_score`:
time-of-day match (+40), weekday match (+30), class-type match
(+20/+10/0), morning bonus (+10), weekday bonus (+5). -/
def nonConflictScore (p : Preferences) (event_row : EventRow) (t : Int) : Int :=
  let hour := (t.ediv 60).emod 24
  let day := dayName (weekdayOfDays (t.ediv 1440))
  let time_of_day := get_time_of_day hour
  let s1 : Int := if p.preferred_times.contains time_of_day then 40 else 0
  let s2 : Int := if p.preferred_days.contains day then 30 else 0
  let event_name := (event_row.scraped_event.getD "").toLower
  let s4 : Int :=
    if !p.class_types.isEmpty then
      if p.class_types.any (fun ty => listContainsSub ty.toLower.data event_name.data)
      then 20 else 0
    else 10
  let s5 : Int := if time_of_day = "morning" then 10 else 0
  let s6 : Int :=
    if ["Monday", "Tuesday", "Wednesday", "Thursday", "Friday"].contains day then 5 else 0
  s1 + s2 + s4 + s5 + s6

/-- Models `calculate_fitness_score` before the final `max(0, score)`.
`calendarHasStart` models `'start' in calendar_df.columns`. -/
def rawFitnessScore (p : Preferences) (event_row : EventRow)
    (calendarHasStart : Bool) (calendar_df : List CalEvent) : Int :=
  match event_row.start with
  | none => 0
  | some t =>
    nonConflictScore p event_row t +
      conflictScorePart t (eventEnd event_row t) calendarHasStart calendar_df

/-- Models `FitnessRecommender.calculate_fitness_score`: the per-event score,
floored at 0 (returns 0 outright when `start` is absent). -/
def calculate_fitness_score (p : Preferences) (event_row : EventRow)
    (calendarHasStart : Bool) (calendar_df : List CalEvent) : Int :=
  match event_row.start with
  | none => 0
  | some _ => max 0 (rawFitnessScore p event_row calendarHasStart calendar_df)

/-! ## Spec-side notions (from the specification's words, for comparison) -/

/-- A canonical event row as the data model describes it: `start` is an
aware timestamp, `end` is absent or aware, exactly one of
`calendar_event`/`scraped_event` is set, and the scratch column
`end_filled` is not among its keys. -/
def canonicalRow (r : Row) : Bool :=
  (match rowGet r "start" with | .ts _ => true | _ => false) &&
  (match rowGet r "end" with | .na => true | .ts _ => true | _ => false) &&
  ((rowGet r "calendar_event").notna != (rowGet r "scraped_event").notna) &&
  !(rowKeys r).contains "end_filled"

/-- The `start` timestamp of a canonical row. -/
def rowStartVal (r : Row) : Int := startKeyCell (rowGet r "start")

/-- Spec §3 "Effective end": `end` when present, else `start + 1h`. -/
def rowEffEnd (r : Row) : Int :=
  match rowGet r "end" with
  | .ts t => t
  | _ => rowStartVal r + 60

/-- The spec's half-open overlap relation between two canonical rows:
`fixed.start < candidate.effective_end AND candidate.start < fixed.effective_end`. -/
def specOverlapRows (f c : Row) : Prop :=
  rowStartVal f < rowEffEnd c ∧ rowStartVal c < rowEffEnd f

instance (f c : Row) : Decidable (specOverlapRows f c) := by
  unfold specOverlapRows; infer_instance

/-- The overlap test claim C2 describes for the scorer: the merger's
half-open test with a default one-hour duration substituted whenever either
event's end is absent. -/
def spec_overlapC2 (row : EventRow) (c : CalEvent) : Bool :=
  match row.start, c.start with
  | some es, some cs =>
    let ee : Int :=
      match row.endField with
      | some (some e) => e
      | _ => es + 60
    let ce : Int := c.end_.getD (cs + 60)
    decide (cs < ee) && decide (es < ce)
  | _, _ => false

/-- Number of fixed-commitment events overlapping the candidate under claim
C2's overlap notion. -/
def spec_conflict_count (row : EventRow) (cal : List CalEvent) : Nat :=
  (cal.filter (spec_overlapC2 row)).length

/-! ## Concrete instances used by witnesses and counterexamples -/

/-- The instant 2025-10-06 (a Monday) 10:00 UTC, in minutes since the epoch. -/
def tMon10 : Int := daysFromCivil 2025 10 6 * 1440 + 600

/-- A candidate: Monday morning, one hour long, titled "Yoga Flow". -/
def candMon : EventRow := ⟨some tMon10, some (some (tMon10 + 60)), some "Yoga Flow"⟩

/-- A fixed commitment overlapping `candMon`, with both endpoints present. -/
def calOverlapping : CalEvent := ⟨some tMon10, some (tMon10 + 60)⟩

/-- A fixed commitment overlapping `candMon` per claim C2's test, but with an
absent end. -/
def calNoEnd : CalEvent := ⟨some tMon10, none⟩

/-- A fixed commitment far from `candMon` (15:00-16:00 the same day). -/
def calDisjoint : CalEvent := ⟨some (tMon10 + 300), some (tMon10 + 360)⟩

/-- A canonical fixed-commitment row (10:00-11:00 on 2024-01-15, UTC
minutes picked arbitrarily). -/
def fixedRowW : Row :=
  [("start", .ts 1000), ("end", .ts 1060), ("calendar_event", .str "Meeting"),
   ("scraped_event", .na), ("description", .str ""), ("location", .str ""),
   ("url", .str "")]

/-- A canonical candidate row overlapping `fixedRowW`. -/
def candRowOverlap : Row :=
  [("start", .ts 1030), ("end", .ts 1090), ("calendar_event", .na),
   ("scraped_event", .str "Yoga"), ("description", .str ""), ("location", .str ""),
   ("url", .str "")]

/-- A canonical candidate row touching `fixedRowW` end-to-start (no overlap,
half-open). -/
def candRowTouch : Row :=
  [("start", .ts 940), ("end", .ts 1000), ("calendar_event", .na),
   ("scraped_event", .str "Pilates"), ("description", .str ""), ("location", .str ""),
   ("url", .str "")]

/-- A canonical-event dataframe exercising the conflict resolver. -/
def mergerDFW : DF :=
  ⟨["start", "end", "calendar_event", "scraped_event", "description", "location", "url"],
   [candRowTouch, fixedRowW, candRowOverlap]⟩

/-- A non-empty raw table with none of the columns the cleaners read. -/
def badColumnsDF : DF := ⟨["foo"], [[("foo", .str "x")]]⟩

/-- A recurring-class row: Monday classes 10:00-10:50, term 2025-08-25
through 2025-10-11. -/
def cmuRowW : Row :=
  [("class_name", .str "Yoga"), ("weekday", .str "Mon"),
   ("start_time_local", .str "10:00"), ("end_time_local", .str "10:50"),
   ("term_start_date", .str "2025-08-25"), ("term_end_date", .str "2025-10-11"),
   ("studio", .str "S1"), ("campus_area", .str "Oakland"),
   ("class_description", .str "desc"), ("registration_url", .str "url")]

/-- The seven Monday dates of the term in claim C7. -/
def c7Dates : List String :=
  ["2025-08-25", "2025-09-01", "2025-09-08", "2025-09-15",
   "2025-09-22", "2025-09-29", "2025-10-06"]

/-- A one-row recurring-class table built from `cmuRowW`. -/
def cmuDFW : DF :=
  ⟨["class_name", "weekday", "start_time_local", "end_time_local",
    "term_start_date", "term_end_date", "studio", "campus_area",
    "class_description", "registration_url"], [cmuRowW]⟩

/-- An empty raw table that still carries a column. -/
def emptyDFW : DF := ⟨["date_time"], []⟩

/-- The wall-clock reading 2025-10-04 10:15 in epoch minutes — the start
time parsed from the natural-language counterexample string. -/
def c3Wall : Int := daysFromCivil 2025 10 4 * 1440 + 615


/-! ## Helper lemmas -/


theorem find?_replace_pred (k : String) (v : Cell) :
    ((fun p : String × Cell => p.1 == k) ∘ (fun p => if p.1 == k then (k, v) else p))
      = (fun p : String × Cell => p.1 == k) := by
  funext p
  by_cases hp : p.1 == k
  · have hp2 : p.1 = k := by simpa using hp
    simp [hp, hp2]
  · have hp2 : ¬p.1 = k := by simpa using hp
    simp [hp, hp2]

theorem rowGet_rowSet_same (r : Row) (k : String) (v : Cell) :
    rowGet (rowSet r k v) k = v := by
  unfold rowSet rowGet
  cases h : r.any (fun p => p.1 == k) with
  | true =>
    simp only [h, if_true]
    rw [List.find?_map, find?_replace_pred]
    have hs : (List.find? (fun p : String × Cell => p.1 == k) r).isSome := by
      rw [List.find?_isSome]; simpa using h
    obtain ⟨p0, hp0⟩ := Option.isSome_iff_exists.mp hs
    have hq0 := List.find?_some hp0
    have hq2 : p0.1 = k := by simpa using hq0
    rw [hp0]
    simp [hq2]
  | false =>
    simp only [h, Bool.false_eq_true, if_false]
    have hnone : List.find? (fun p : String × Cell => p.1 == k) r = none := by
      rw [List.find?_eq_none]
      intro x hx hq
      have h2 : r.any (fun p => p.1 == k) = true := List.any_eq_true.mpr ⟨x, hx, hq⟩
      rw [h] at h2
      exact Bool.false_ne_true h2
    rw [List.find?_append, hnone]
    simp [List.find?]

theorem rowGet_rowSet_ne (r : Row) (k k2 : String) (v : Cell) (hne : k ≠ k2) :
    rowGet (rowSet r k v) k2 = rowGet r k2 := by
  unfold rowSet rowGet
  cases h : r.any (fun p => p.1 == k) with
  | true =>
    simp only [h, if_true]
    have hq : ((fun p : String × Cell => p.1 == k2) ∘ (fun p => if p.1 == k then (k, v) else p))
        = (fun p : String × Cell => p.1 == k2) := by
      funext p
      by_cases hp : p.1 == k
      · have hp2 : p.1 = k := by simpa using hp
        have hk2 : ¬k = k2 := hne
        have hpk2 : ¬p.1 = k2 := by rw [hp2]; exact hk2
        simp [hp, hp2, hk2, hpk2]
      · have hp2 : ¬p.1 = k := by simpa using hp
        simp [hp, hp2]
    rw [List.find?_map, hq]
    cases hfind : List.find? (fun p : String × Cell => p.1 == k2) r with
    | none => simp
    | some p0 =>
      have hq0 := List.find?_some hfind
      have h2 : p0.1 = k2 := by simpa using hq0
      have hp0 : ¬p0.1 = k := by rw [h2]; exact fun hh => hne hh.symm
      simp [hp0]
  | false =>
    simp only [h, Bool.false_eq_true, if_false]
    rw [List.find?_append]
    cases hfind : List.find? (fun p : String × Cell => p.1 == k2) r with
    | none =>
      simp only [Option.none_or]
      have hkk : (k == k2) = false := by simpa using hne
      simp [List.find?, hkk]
    | some p0 => simp

theorem rowDrop_rowSet (r : Row) (k : String) (v : Cell)
    (h : (rowKeys r).contains k = false) :
    rowDrop (rowSet r k v) k = r := by
  have hall : ∀ p ∈ r, (p.1 != k) = true := by
    intro p hp
    cases hek : p.1 == k
    · simp [bne, hek]
    · exfalso
      have hpk : p.1 = k := by simpa using hek
      have hmem : k ∈ rowKeys r := by
        rw [← hpk]
        exact List.mem_map.mpr ⟨p, hp, rfl⟩
      rw [List.contains_eq_any_beq] at h
      have h2 : ((rowKeys r).any fun x => k == x) = true :=
        List.any_eq_true.mpr (⟨k, hmem, by simp⟩ : ∃ x ∈ rowKeys r, (k == x) = true)
      rw [h] at h2
      exact Bool.false_ne_true h2
  have hany : r.any (fun p => p.1 == k) = false := by
    cases hh : r.any (fun p => p.1 == k)
    · rfl
    · obtain ⟨x, hx, hq⟩ := List.any_eq_true.mp hh
      have := hall x hx
      rw [bne] at this
      rw [hq] at this
      simp at this
  unfold rowSet rowDrop
  rw [hany]
  simp only [Bool.false_eq_true, if_false, List.filter_append]
  rw [List.filter_eq_self.mpr hall]
  simp

theorem mem_insertByStart (x r : Row) (l : List Row) :
    x ∈ insertByStart r l ↔ x = r ∨ x ∈ l := by
  induction l with
  | nil => simp [insertByStart]
  | cons a as ih =>
    unfold insertByStart
    by_cases h : startKey r ≤ startKey a
    · simp [h]
    · simp only [h, if_false, List.mem_cons, ih]
      tauto

theorem mem_sortRowsByStart (x : Row) (l : List Row) :
    x ∈ sortRowsByStart l ↔ x ∈ l := by
  unfold sortRowsByStart
  induction l with
  | nil => simp
  | cons a as ih =>
    simp only [List.foldr_cons, List.mem_cons]
    rw [mem_insertByStart, ih]

theorem rowKeys_proj (r : Row) (cs : List String) :
    rowKeys (cs.map (fun c => (c, rowGet r c))) = cs := by
  unfold rowKeys
  induction cs with
  | nil => rfl
  | cons c rest ih => simpa using ih

theorem rowGet_proj (r : Row) (cs : List String) (k : String)
    (h : k ∈ cs) :
    rowGet (cs.map (fun c => (c, rowGet r c))) k = rowGet r k := by
  induction cs with
  | nil => simp at h
  | cons c rest ih =>
    simp only [List.map_cons]
    by_cases hc : c == k
    · have hck : c = k := by simpa using hc
      subst hck
      simp [rowGet, List.find?]
    · unfold rowGet
      simp only [List.find?, hc]
      rcases List.mem_cons.mp h with h1 | h2
      · exact absurd (by simp [h1] : (c == k) = true) (by simp_all)
      · exact ih h2

theorem select_ok {df : DF} {cs : List String} {out : DF}
    (h : df.select cs = .ok out) :
    out.cols = cs ∧
    out.rows = df.rows.map (fun r => cs.map (fun c => (c, rowGet r c))) := by
  unfold DF.select at h
  by_cases hall : cs.all df.hasCol
  · simp only [hall, if_true, Except.ok.injEq] at h
    subst h
    exact ⟨rfl, rfl⟩
  · simp [hall] at h

theorem except_bind_ok {α β : Type} {e : Except String α} {g : α → Except String β} {b : β}
    (h : (e >>= g) = .ok b) : ∃ a, e = .ok a ∧ g a = .ok b := by
  cases e with
  | error s => simp [Bind.bind, Except.bind] at h
  | ok a => exact ⟨a, rfl, by simpa [Bind.bind, Except.bind] using h⟩

/-! ## Claim theorems -/

theorem conflictFold_eq (es : Int) (ee : Option Int) (cal : List CalEvent) (a b : Int) :
    cal.foldl (fun acc c => if isConflict es ee c then (acc.1 - 50, acc.2 + 1) else acc) (a, b)
      = (a - 50 * ((cal.filter (isConflict es ee)).length : Int),
         b + ((cal.filter (isConflict es ee)).length : Int)) := by
  induction cal generalizing a b with
  | nil => simp
  | cons c rest ih =>
    by_cases h : isConflict es ee c
    · simp only [List.foldl_cons, h, if_true, List.filter_cons, ih, List.length_cons]
      rw [Prod.mk.injEq]
      constructor <;> push_cast <;> ring
    · simp only [List.foldl_cons, h, Bool.false_eq_true, if_false, List.filter_cons, ih]

theorem isConflict_noEnd (es : Int) (ee : Option Int) (c : CalEvent)
    (h : c.end_ = none) : isConflict es ee c = false := by
  obtain ⟨cs, ce⟩ := c
  simp only at h
  subst h
  unfold isConflict
  cases cs <;> rfl

/-- C10: Calling `set_preferences` with a falsy argument — `None`
(`none`), `0` (`some 0`), or an empty list (`some []`), exactly the
arguments with `truthyList`/`truthyNat` false — leaves that preference at
its previous value; in particular `max_classes_per_week` and
`min_gap_hours` cannot be set to 0 and the class-type list cannot be reset
to empty, and preferences not mentioned (passed `none`) are unchanged. -/
theorem c10_set_preferences_falsy (p : Preferences)
    (pt pd ct : Option (List String)) (mc mg : Option Nat) :
    (truthyList pt = false →
      (set_preferences p pt pd ct mc mg).preferred_times = p.preferred_times) ∧
    (truthyList pd = false →
      (set_preferences p pt pd ct mc mg).preferred_days = p.preferred_days) ∧
    (truthyList ct = false →
      (set_preferences p pt pd ct mc mg).class_types = p.class_types) ∧
    (truthyNat mc = false →
      (set_preferences p pt pd ct mc mg).max_classes_per_week = p.max_classes_per_week) ∧
    (truthyNat mg = false →
      (set_preferences p pt pd ct mc mg).min_gap_hours = p.min_gap_hours) := by
  unfold set_preferences
  refine ⟨?_, ?_, ?_, ?_, ?_⟩ <;> intro h <;>
    cases h1 : truthyList pt <;> cases h2 : truthyList pd <;>
    cases h3 : truthyList ct <;> cases h4 : truthyNat mc <;>
    cases h5 : truthyNat mg <;> simp_all

/-- Witness for C10 at concrete falsy arguments. -/
theorem c10_set_preferences_falsy_witness :
    (set_preferences defaultPreferences (some []) none (some []) (some 0) (some 0)).preferred_times
        = defaultPreferences.preferred_times ∧
    (set_preferences defaultPreferences (some []) none (some []) (some 0) (some 0)).preferred_days
        = defaultPreferences.preferred_days ∧
    (set_preferences defaultPreferences (some []) none (some []) (some 0) (some 0)).class_types
        = defaultPreferences.class_types ∧
    (set_preferences defaultPreferences (some []) none (some []) (some 0) (some 0)).max_classes_per_week
        = defaultPreferences.max_classes_per_week ∧
    (set_preferences defaultPreferences (some []) none (some []) (some 0) (some 0)).min_gap_hours
        = defaultPreferences.min_gap_hours := by
  have h := c10_set_preferences_falsy defaultPreferences (some []) none (some []) (some 0) (some 0)
  exact ⟨h.1 (by decide), h.2.1 (by decide), h.2.2.1 (by decide),
    h.2.2.2.1 (by decide), h.2.2.2.2 (by decide)⟩

/-- C8: Merging the same three cleaned inputs twice, at the same
processing instant (the clock being the explicit `nowYear`/`current_time`
parameters of the embedding), yields identical output in contents and
order: the merge is a pure function of its inputs and the instant. -/
theorem c8_merge_deterministic (nowYear current_time : Int) (g w c : Option DF) :
    standardize_and_combine nowYear current_time g w c =
      standardize_and_combine nowYear current_time g w c := rfl

/-- C5 counterexample: A non-empty raw table lacking the `date_time`
column makes the scrape cleaner raise a `KeyError` to its caller instead of
returning an empty well-typed result, contradicting the never-raising
claim. -/
theorem c5_counterexample :
    clean_webscraping_df 2025 badColumnsDF = .error "KeyError: date_time" := by rfl

/-- C5 amended: On every EMPTY input table each of the three cleaners
returns the canonical-column empty result and never errors; non-empty
tables missing required source columns can instead produce a `KeyError`
(see the counterexample). -/
theorem c5_amended_empty_ok (df : DF) (nowYear current_time : Int)
    (h : df.isEmpty = true) :
    clean_google_calendar_df df = .ok ⟨googleCanonicalCols, []⟩ ∧
    clean_webscraping_df nowYear df = .ok ⟨webCanonicalCols, []⟩ ∧
    clean_cmu_scraper_df current_time df = .ok ⟨cmuCanonicalCols, []⟩ := by
  unfold clean_google_calendar_df clean_webscraping_df clean_cmu_scraper_df
  simp [h]

/-- Witness for C5-amended at a concrete empty table. -/
theorem c5_amended_empty_ok_witness :
    clean_google_calendar_df emptyDFW = .ok ⟨googleCanonicalCols, []⟩ ∧
    clean_webscraping_df 2025 emptyDFW = .ok ⟨webCanonicalCols, []⟩ ∧
    clean_cmu_scraper_df 0 emptyDFW = .ok ⟨cmuCanonicalCols, []⟩ :=
  c5_amended_empty_ok emptyDFW 2025 0 (by decide)


/-- C2 counterexample: A fixed commitment with an absent end that
overlaps the candidate under the claim's test (default one-hour duration)
does NOT have 50 points subtracted: the code skips calendar events whose
`end` is absent, counts zero conflicts, and even grants the +20
no-conflict bonus (score 115, not the claimed 95 − 50 = 45). -/
theorem c2_counterexample :
    spec_overlapC2 candMon calNoEnd = true ∧
    calculate_fitness_score defaultPreferences candMon true [calNoEnd] = 115 ∧
    ¬ (calculate_fitness_score defaultPreferences candMon true [calNoEnd] =
        calculate_fitness_score defaultPreferences candMon true [] - 50) := by
  refine ⟨by decide, by decide, by decide⟩

/-- C2 amended: The conflict loop subtracts exactly 50 points for each
existing fixed-commitment event with BOTH `start` and `end` present whose
interval overlaps `[event_start, event_end)` (half-open, `NaT`
comparisons false); fixed-commitment events with an absent end are
skipped — appending one to a nonempty calendar leaves the score
unchanged. -/
theorem c2_amended_conflict_penalty :
    (∀ es ee cal, conflictFold es ee cal =
      ((-50) * ((cal.filter (isConflict es ee)).length : Int),
       ((cal.filter (isConflict es ee)).length : Int))) ∧
    (∀ p row c cal, c.end_ = none → cal ≠ [] →
      calculate_fitness_score p row true (c :: cal) =
        calculate_fitness_score p row true cal) := by
  constructor
  · intro es ee cal
    unfold conflictFold
    rw [conflictFold_eq es ee cal 0 0]
    rw [Prod.mk.injEq]
    constructor <;> ring
  · intro p row c cal hend hne
    have hcal : cal.isEmpty = false := by
      cases cal
      · exact absurd rfl hne
      · rfl
    unfold calculate_fitness_score rawFitnessScore
    cases hstart : row.start with
    | none => rfl
    | some t =>
      have hic := isConflict_noEnd t (eventEnd row t) c hend
      unfold conflictScorePart conflictFold
      simp [hic, hcal]

/-- Witness for C2-amended: appending the absent-end commitment to a
nonempty calendar leaves the concrete score unchanged. -/
theorem c2_amended_conflict_penalty_witness :
    calculate_fitness_score defaultPreferences candMon true (calNoEnd :: [calDisjoint]) =
      calculate_fitness_score defaultPreferences candMon true [calDisjoint] :=
  c2_amended_conflict_penalty.2 defaultPreferences candMon calNoEnd [calDisjoint]
    rfl (by decide)

/-- C4 counterexample: Adding one overlapping fixed commitment to a
calendar whose events did not previously conflict decreases the score by
70 (−50 penalty plus the lost +20 no-conflict bonus), not by exactly 50:
115 drops to 45. -/
theorem c4_counterexample :
    isConflict tMon10 (eventEnd candMon tMon10) calOverlapping = true ∧
    calculate_fitness_score defaultPreferences candMon true [calDisjoint] = 115 ∧
    calculate_fitness_score defaultPreferences candMon true [calDisjoint, calOverlapping] = 45 ∧
    ¬ (calculate_fitness_score defaultPreferences candMon true [calDisjoint, calOverlapping] =
        calculate_fitness_score defaultPreferences candMon true [calDisjoint] - 50) := by
  refine ⟨by decide, by decide, by decide, by decide⟩

/-- C4 amended: Holding the candidate and preferences fixed, adding one
fixed commitment (with `start` and `end` present) that conflicts with the
candidate decreases the PRE-FLOOR score by exactly 50 when the calendar
was empty or already contained a conflicting event, and by 70 when the
calendar was nonempty with no prior conflict (the +20 no-conflict bonus is
lost as well); the returned score is the pre-floor score clamped at 0. -/
theorem c4_amended_conflict_decrease (p : Preferences) (row : EventRow) (t : Int)
    (c : CalEvent) (cal : List CalEvent)
    (hstart : row.start = some t)
    (hconf : isConflict t (eventEnd row t) c = true) :
    (calculate_fitness_score p row true (cal ++ [c]) =
        max 0 (rawFitnessScore p row true (cal ++ [c]))) ∧
    (cal = [] →
      rawFitnessScore p row true (cal ++ [c]) = rawFitnessScore p row true cal - 50) ∧
    ((cal.filter (isConflict t (eventEnd row t))).length ≠ 0 →
      rawFitnessScore p row true (cal ++ [c]) = rawFitnessScore p row true cal - 50) ∧
    (cal ≠ [] → (cal.filter (isConflict t (eventEnd row t))).length = 0 →
      rawFitnessScore p row true (cal ++ [c]) = rawFitnessScore p row true cal - 70) := by
  have hfoldBig : conflictFold t (eventEnd row t) (cal ++ [c]) =
      ((-50) * (((cal.filter (isConflict t (eventEnd row t))).length : Int) + 1),
       ((cal.filter (isConflict t (eventEnd row t))).length : Int) + 1) := by
    unfold conflictFold
    rw [conflictFold_eq]
    rw [List.filter_append]
    simp [hconf]
    try ring
  have hfoldSmall : conflictFold t (eventEnd row t) cal =
      ((-50) * ((cal.filter (isConflict t (eventEnd row t))).length : Int),
       ((cal.filter (isConflict t (eventEnd row t))).length : Int)) := by
    unfold conflictFold
    rw [conflictFold_eq]
    rw [Prod.mk.injEq]
    constructor <;> ring
  refine ⟨?_, ?_, ?_, ?_⟩
  · unfold calculate_fitness_score
    rw [hstart]
  · intro hnil
    subst hnil
    unfold rawFitnessScore conflictScorePart
    simp only [hstart, hfoldBig]
    simp
    ring
  · intro hk
    have hne : cal ≠ [] := by
      intro hnil
      subst hnil
      simp at hk
    have hcal : cal.isEmpty = false := by
      cases cal
      · exact absurd rfl hne
      · rfl
    unfold rawFitnessScore conflictScorePart
    simp only [hstart, hfoldBig, hfoldSmall]
    have h1 : ((cal ++ [c]).isEmpty) = false := by
      cases cal <;> rfl
    have hk2 : ¬ (((cal.filter (isConflict t (eventEnd row t))).length : Int) + 1 = 0) := by
      positivity
    simp only [h1, hcal, Bool.not_false, Bool.and_self, if_true]
    rw [if_neg hk2]
    have hk3 : ¬ (((cal.filter (isConflict t (eventEnd row t))).length : Int) = 0) := by
      exact_mod_cast hk
    rw [if_neg hk3]
    ring
  · intro hne hk
    have hcal : cal.isEmpty = false := by
      cases cal
      · exact absurd rfl hne
      · rfl
    unfold rawFitnessScore conflictScorePart
    simp only [hstart, hfoldBig, hfoldSmall]
    have h1 : ((cal ++ [c]).isEmpty) = false := by
      cases cal <;> rfl
    have hk2 : ¬ (((cal.filter (isConflict t (eventEnd row t))).length : Int) + 1 = 0) := by
      positivity
    simp only [h1, hcal, Bool.not_false, Bool.and_self, if_true]
    rw [if_neg hk2]
    rw [hk]
    simp
    ring

/-- Witness for C4-amended at a concrete already-conflicting calendar:
adding a second overlapping commitment subtracts exactly 50 pre-floor. -/
theorem c4_amended_conflict_decrease_witness :
    rawFitnessScore defaultPreferences candMon true ([calOverlapping] ++ [calOverlapping]) =
      rawFitnessScore defaultPreferences candMon true [calOverlapping] - 50 :=
  (c4_amended_conflict_decrease defaultPreferences candMon tMon10 calOverlapping
    [calOverlapping] rfl (by decide)).2.2.1 (by decide)


/-- C3 counterexample: For the natural-language input
"Saturday, October 4 · 10:15 - 11:15am EDT" (processing year 2025) the
parser returns the wall-clock readings 10:15/11:15 localized AS UTC
(`tz_localize('UTC')`), not localized in Eastern: converting the returned
start instant back to Eastern gives 06:15 on 2025-10-04, not the parsed
10:15 wall-clock time, so the claimed round trip fails. -/
theorem c3_counterexample :
    parse_natural_language_datetime 2025 "Saturday, October 4 · 10:15 - 11:15am EDT" =
      (Cell.ts c3Wall, Cell.ts (c3Wall + 60)) ∧
    utcToEastern c3Wall ≠ c3Wall := by
  refine ⟨by decide, by decide⟩

/-- C3 amended: The Datetime Normalizer parses the two halves of the
natural-language form as local wall-clock times and produces UTC instants
by localizing those wall-clock readings AS UTC: whenever the wall-clock
stage parses naive readings `a` and `b`, the function returns exactly the
instants `a` and `b` (so the instants, read back in UTC — not Eastern —
show the parsed wall-clock times). -/
theorem c3_amended_utc_localization (year : Int) (s : String) (a b : Int)
    (ha : (parseNLWall year s).1 = .naive a)
    (hb : (parseNLWall year s).2 = .naive b) :
    parse_natural_language_datetime year s = (.ts a, .ts b) := by
  show (localizeUTCCell (parseNLWall year s).1, localizeUTCCell (parseNLWall year s).2)
      = (Cell.ts a, Cell.ts b)
  rw [ha, hb]
  rfl

/-- Witness for C3-amended at the concrete natural-language input. -/
theorem c3_amended_utc_localization_witness :
    parse_natural_language_datetime 2025 "Saturday, October 4 · 10:15 - 11:15am EDT" =
      (.ts c3Wall, .ts (c3Wall + 60)) :=
  c3_amended_utc_localization 2025 "Saturday, October 4 · 10:15 - 11:15am EDT"
    c3Wall (c3Wall + 60) (by decide) (by decide)

/-- C6: Every occurrence record emitted by the recurring-class cleaner
has its `start` at or after the processing instant passed as "now": the
final `start >= current_time` filter guarantees it on every success
path. -/
theorem c6_future_only (df : DF) (current_time : Int) (out : DF)
    (h : clean_cmu_scraper_df current_time df = .ok out) :
    ∀ r ∈ out.rows, ∃ t, rowGet r "start" = .ts t ∧ current_time ≤ t := by
  unfold clean_cmu_scraper_df at h
  by_cases hemp : df.isEmpty = true
  · rw [if_pos hemp] at h
    obtain rfl : (⟨cmuCanonicalCols, []⟩ : DF) = out := by
      simpa using h
    intro r hr
    simp at hr
  · rw [if_neg hemp] at h
    by_cases hocc : ((df.rows.map
        (fun r => generate_class_occurrences_optimized r current_time)).flatten).isEmpty = true
    · simp only [hocc, if_true, Except.ok.injEq] at h
      subst h
      intro r hr
      simp at hr
    · simp only [hocc, Bool.false_eq_true, if_false] at h
      obtain ⟨names, hnames, h⟩ := except_bind_ok h
      obtain ⟨descs, hdescs, h⟩ := except_bind_ok h
      obtain ⟨urls, hurls, h⟩ := except_bind_ok h
      obtain ⟨hcols, hrows⟩ := select_ok h
      intro r hr
      rw [hrows] at hr
      obtain ⟨r0, hr0, hproj⟩ := List.mem_map.mp hr
      have hr0f : r0 ∈ List.filter
          (fun r => cellGEnow (rowGet r "start") current_time) _ := hr0
      have hpred : cellGEnow (rowGet r0 "start") current_time = true :=
        (List.mem_filter.mp hr0f).2
      cases hcell : rowGet r0 "start" with
      | ts t =>
        refine ⟨t, ?_, ?_⟩
        · rw [← hproj, rowGet_proj r0 cmuCanonicalCols "start" (by decide), hcell]
        · unfold cellGEnow at hpred
          rw [hcell] at hpred
          exact of_decide_eq_true hpred
      | na =>
        unfold cellGEnow at hpred
        rw [hcell] at hpred
        simp at hpred
      | str s2 =>
        unfold cellGEnow at hpred
        rw [hcell] at hpred
        simp at hpred
      | naive t2 =>
        unfold cellGEnow at hpred
        rw [hcell] at hpred
        simp at hpred

/-- Witness for C6: the cleaner on an empty table succeeds and the
future-only property holds for its (empty) output. -/
theorem c6_future_only_witness :
    clean_cmu_scraper_df 0 emptyDFW = .ok ⟨cmuCanonicalCols, []⟩ ∧
    (∀ r ∈ (⟨cmuCanonicalCols, []⟩ : DF).rows,
      ∃ t, rowGet r "start" = .ts t ∧ (0 : Int) ≤ t) :=
  ⟨rfl, c6_future_only emptyDFW 0 ⟨cmuCanonicalCols, []⟩ rfl⟩

/-- C9: Whenever the combine operation returns, the resulting table
exposes exactly the six columns time_range, scraped_event, calendar_event,
description, location, url — in particular the internal UTC `start`/`end`
columns are not present, in the column list or in any returned row. -/
theorem c9_output_columns (nowYear current_time : Int) (g w c : Option DF) (out : DF)
    (h : standardize_and_combine_optimized nowYear current_time g w c = .ok out) :
    out.cols = finalCols ∧ (∀ r ∈ out.rows, rowKeys r = finalCols) ∧
    out.cols.contains "start" = false ∧ out.cols.contains "end" = false := by
  unfold standardize_and_combine_optimized at h
  obtain ⟨l1, h1, h⟩ := except_bind_ok h
  obtain ⟨l2, h2, h⟩ := except_bind_ok h
  obtain ⟨l3, h3, h⟩ := except_bind_ok h
  by_cases hemp : (l1 ++ l2 ++ l3).isEmpty = true
  · simp only [hemp, if_true, Except.ok.injEq] at h
    subst h
    refine ⟨rfl, ?_, by decide, by decide⟩
    intro r hr
    simp at hr
  · simp only [hemp, Bool.false_eq_true, if_false] at h
    by_cases hsc : ((concatDFs (l1 ++ l2 ++ l3)).hasCol "start" &&
        (concatDFs (l1 ++ l2 ++ l3)).hasCol "end") = true
    · simp only [hsc, if_true] at h
      obtain ⟨d1, hd1, h⟩ := except_bind_ok h
      obtain ⟨d2, hd2, h⟩ := except_bind_ok h
      obtain ⟨d3, hd3, h⟩ := except_bind_ok h
      obtain ⟨hcols, hrows⟩ := select_ok h
      refine ⟨hcols, ?_, ?_, ?_⟩
      · intro r hr
        rw [hrows] at hr
        obtain ⟨r0, hr0, hproj⟩ := List.mem_map.mp hr
        rw [← hproj]
        exact rowKeys_proj r0 finalCols
      · rw [hcols]; decide
      · rw [hcols]; decide
    · simp only [hsc, Bool.false_eq_true, if_false] at h
      exact absurd h (by simp)

/-- Witness for C9: combining three absent inputs succeeds with the empty
six-column table, for which the column properties hold. -/
theorem c9_output_columns_witness :
    (⟨finalCols, []⟩ : DF).cols = finalCols ∧
    (∀ r ∈ (⟨finalCols, []⟩ : DF).rows, rowKeys r = finalCols) ∧
    (⟨finalCols, []⟩ : DF).cols.contains "start" = false ∧
    (⟨finalCols, []⟩ : DF).cols.contains "end" = false :=
  c9_output_columns 0 0 none none none ⟨finalCols, []⟩ (by rfl)


/-- Unfolding lemma for `generate_class_occurrences_optimized` once its
row lookups are known: the loop is a `filterMap` over the weekly dates. -/
theorem generate_eq (row : Row) (now : Int) (startDay endDay : Int)
    (wkname : String) (wi : Int) (st0 et0 : String)
    (h1 : cellDateDay (pd_to_datetime_cell (rowGet row "term_start_date")) = some startDay)
    (h2 : cellDateDay (pd_to_datetime_cell (rowGet row "term_end_date")) = some endDay)
    (h3 : weekday_map.find? (fun p => Cell.str p.1 == rowGet row "weekday")
        = some (wkname, wi))
    (h4 : rowGet row "start_time_local" = .str st0)
    (h5 : rowGet row "end_time_local" = .str et0) :
    generate_class_occurrences_optimized row now =
      (weeklyDates (startDay +
          (if wi - weekdayOfDays startDay < 0 then wi - weekdayOfDays startDay + 7
           else wi - weekdayOfDays startDay)) endDay).filterMap (fun d =>
        match parseDateTimeCombined d (strTrim st0), parseDateTimeCombined d (strTrim et0) with
        | .naive sdt, .naive edt => some (rowSet (rowSet (rowSet row
              "start" (.ts (easternLocalToUTC sdt)))
              "end" (.ts (easternLocalToUTC edt)))
              "occurrence_date" (.str (fmtDate d)))
        | _, _ => none) := by
  unfold generate_class_occurrences_optimized
  rw [h1, h2, h3, h4, h5]

/-- C7: A recurring-class definition with weekday Mon, term 2025-08-25
through 2025-10-11 and parseable start/end times of day expands to exactly
the seven weekly occurrences dated 2025-08-25, 09-01, 09-08, 09-15, 09-22,
09-29 and 10-06: 7-day steps from the first matching weekday on/after term
start through term end inclusive. -/
theorem c7_recurrence_expansion (row : Row) (st et : String) (m1 m2 : Int) (now : Int)
    (hw : rowGet row "weekday" = .str "Mon")
    (hts : rowGet row "term_start_date" = .str "2025-08-25")
    (hte : rowGet row "term_end_date" = .str "2025-10-11")
    (hst : rowGet row "start_time_local" = .str st)
    (het : rowGet row "end_time_local" = .str et)
    (hm1 : timeOfDayParse (strTrim st) = some m1)
    (hm2 : timeOfDayParse (strTrim et) = some m2) :
    (generate_class_occurrences_optimized row now).map (fun o => rowGet o "occurrence_date")
      = c7Dates.map Cell.str ∧
    (generate_class_occurrences_optimized row now).length = 7 := by
  have hmain : (generate_class_occurrences_optimized row now).map
      (fun o => rowGet o "occurrence_date") = c7Dates.map Cell.str := by
    have hg := generate_eq row now 20325 20372 "Mon" 0 st et
      (by rw [hts]; decide) (by rw [hte]; decide) (by rw [hw]; decide) hst het
    rw [hg]
    have hwd : weeklyDates (20325 +
        (if (0 : Int) - weekdayOfDays 20325 < 0 then 0 - weekdayOfDays 20325 + 7
         else 0 - weekdayOfDays 20325)) 20372
        = [20325, 20332, 20339, 20346, 20353, 20360, 20367] := by decide
    have hp1 : ∀ d : Int, parseDateTimeCombined d (strTrim st) = .naive (d * 1440 + m1) := by
      intro d
      unfold parseDateTimeCombined
      rw [hm1]
    have hp2 : ∀ d : Int, parseDateTimeCombined d (strTrim et) = .naive (d * 1440 + m2) := by
      intro d
      unfold parseDateTimeCombined
      rw [hm2]
    rw [hwd]
    simp only [List.filterMap_cons, List.filterMap_nil, hp1, hp2, List.map_cons, List.map_nil,
      rowGet_rowSet_same]
    decide
  refine ⟨hmain, ?_⟩
  have := congrArg List.length hmain
  rw [List.length_map, List.length_map] at this
  simpa using this

/-- Witness for C7 at a concrete row (10:00-10:50 Monday classes). -/
theorem c7_recurrence_expansion_witness :
    (generate_class_occurrences_optimized cmuRowW 0).map (fun o => rowGet o "occurrence_date")
      = c7Dates.map Cell.str ∧
    (generate_class_occurrences_optimized cmuRowW 0).length = 7 :=
  c7_recurrence_expansion cmuRowW "10:00" "10:50" 600 650 0
    (by decide) (by decide) (by decide) (by decide) (by decide) (by decide) (by decide)


theorem canonicalRow_start (r : Row) (h : canonicalRow r = true) :
    ∃ t, rowGet r "start" = .ts t := by
  unfold canonicalRow at h
  simp only [Bool.and_eq_true] at h
  obtain ⟨⟨⟨h1, _⟩, _⟩, _⟩ := h
  cases hc : rowGet r "start" <;> rw [hc] at h1
  case ts t => exact ⟨t, rfl⟩
  all_goals simp at h1

theorem canonicalRow_end (r : Row) (h : canonicalRow r = true) :
    rowGet r "end" = .na ∨ ∃ t, rowGet r "end" = .ts t := by
  unfold canonicalRow at h
  simp only [Bool.and_eq_true] at h
  obtain ⟨⟨⟨_, h2⟩, _⟩, _⟩ := h
  cases hc : rowGet r "end" <;> rw [hc] at h2
  case na => exact Or.inl rfl
  case ts t => exact Or.inr ⟨t, rfl⟩
  all_goals simp at h2

theorem canonicalRow_xor (r : Row) (h : canonicalRow r = true) :
    ((rowGet r "calendar_event").notna != (rowGet r "scraped_event").notna) = true := by
  unfold canonicalRow at h
  simp only [Bool.and_eq_true] at h
  exact h.1.2

theorem canonicalRow_noEF (r : Row) (h : canonicalRow r = true) :
    (rowKeys r).contains "end_filled" = false := by
  unfold canonicalRow at h
  simp only [Bool.and_eq_true] at h
  have h4 := h.2
  cases hc : (rowKeys r).contains "end_filled"
  · rfl
  · rw [hc] at h4
    simp at h4

theorem endFilledCell_eq (r : Row) (h : canonicalRow r = true) :
    endFilledCell r = .ts (rowEffEnd r) := by
  obtain ⟨t, hs⟩ := canonicalRow_start r h
  rcases canonicalRow_end r h with he | ⟨e, he⟩ <;>
    unfold endFilledCell fillnaCell cellAdd60 rowEffEnd rowStartVal startKeyCell <;>
    rw [hs, he]

theorem overlapsCell_spec (f c : Row) (hf : canonicalRow f = true) (hc : canonicalRow c = true) :
    overlapsCell (rowSet f "end_filled" (endFilledCell f))
        (rowSet c "end_filled" (endFilledCell c)) = true ↔ specOverlapRows f c := by
  obtain ⟨ft, hfs⟩ := canonicalRow_start f hf
  obtain ⟨ct2, hcs⟩ := canonicalRow_start c hc
  unfold overlapsCell
  rw [rowGet_rowSet_ne f "end_filled" "start" (endFilledCell f) (by decide),
      rowGet_rowSet_ne c "end_filled" "start" (endFilledCell c) (by decide),
      rowGet_rowSet_same, rowGet_rowSet_same,
      endFilledCell_eq f hf, endFilledCell_eq c hc, hfs, hcs]
  unfold specOverlapRows rowStartVal startKeyCell cellLt
  rw [hfs, hcs]
  simp


theorem bang_xor_elim (a b : Bool) (h : (a != b) = true) (hb : b = true) : a = false := by
  cases a <;> cases b <;> simp_all

/-- C1: For every collection of canonical events, the merged output of
the conflict resolver contains no overlapping (fixed, candidate) pair —
half-open intervals with the end defaulting to start + 1h when absent —
and no fixed-commitment record is ever removed. -/
theorem c1_no_overlap_invariant (df out : DF)
    (hcan : ∀ r ∈ df.rows, canonicalRow r = true)
    (hout : remove_overlapping_events_optimized df = .ok out) :
    (∀ f ∈ out.rows, ∀ c ∈ out.rows,
      (rowGet f "calendar_event").notna = true →
      (rowGet c "scraped_event").notna = true →
      ¬ specOverlapRows f c) ∧
    (∀ r ∈ df.rows, (rowGet r "calendar_event").notna = true → r ∈ out.rows) := by
  simp only [remove_overlapping_events_optimized, DF.filterRows] at hout
  split at hout
  case isFalse hcols => exact absurd hout (by simp)
  case isTrue hcols =>
  split at hout
  case isTrue hEc =>
    rw [Except.ok.injEq] at hout
    subst hout
    have hnone : ∀ r ∈ df.rows, ¬(rowGet r "calendar_event").notna = true := by
      rw [List.isEmpty_iff] at hEc
      exact List.filter_eq_nil_iff.mp hEc
    constructor
    · intro f hf c hc2 hcal hscr
      exact absurd hcal (hnone f hf)
    · intro r hr hcal
      exact absurd hcal (hnone r hr)
  case isFalse hEc =>
  split at hout
  case isTrue hEs =>
    rw [Except.ok.injEq] at hout
    subst hout
    have hnos : ∀ r ∈ df.rows, ¬(rowGet r "scraped_event").notna = true := by
      rw [List.isEmpty_iff] at hEs
      exact List.filter_eq_nil_iff.mp hEs
    constructor
    · intro f hf c hc2 hcal hscr
      have hc3 := List.mem_filter.mp hc2
      exact absurd hscr (hnos c hc3.1)
    · intro r hr hcal
      exact List.mem_filter.mpr ⟨hr, hcal⟩
  case isFalse hEs =>
  split at hout
  case isFalse hse => exact absurd hout (by simp)
  case isTrue hse =>
  rw [Except.ok.injEq] at hout
  subst hout
  constructor
  · intro f hf c hc2 hcal hscr
    obtain ⟨yf, hyf, hfeq⟩ := List.mem_map.mp hf
    obtain ⟨yc, hyc, hceq⟩ := List.mem_map.mp hc2
    rw [mem_sortRowsByStart] at hyf hyc
    rcases List.mem_append.mp hyf with hyf1 | hyf2
    · -- f comes from a fixed-commitment row rf
      obtain ⟨rf, hrf, hyfeq⟩ := List.mem_map.mp hyf1
      have hrfdf := (List.mem_filter.mp hrf).1
      have hfeq2 : f = rf := by
        rw [← hfeq, ← hyfeq]
        exact rowDrop_rowSet rf "end_filled" (endFilledCell rf)
          (canonicalRow_noEF rf (hcan rf hrfdf))
      rcases List.mem_append.mp hyc with hyc1 | hyc2
      · -- c cannot come from a fixed row: xor
        obtain ⟨rc, hrc, hyceq⟩ := List.mem_map.mp hyc1
        have hrcdf := (List.mem_filter.mp hrc).1
        have hceq2 : c = rc := by
          rw [← hceq, ← hyceq]
          exact rowDrop_rowSet rc "end_filled" (endFilledCell rc)
            (canonicalRow_noEF rc (hcan rc hrcdf))
        have hcalrc := (List.mem_filter.mp hrc).2
        have hfalse := bang_xor_elim _ _ (canonicalRow_xor rc (hcan rc hrcdf))
          (by rw [← hceq2]; exact hscr)
        rw [hfalse] at hcalrc
        simp at hcalrc
      · -- c comes from a kept candidate row sc
        have hyc3 := List.mem_filter.mp hyc2
        obtain ⟨sc, hsc, hyceq⟩ := List.mem_map.mp hyc3.1
        have hscdf := (List.mem_filter.mp hsc).1
        have hceq2 : c = sc := by
          rw [← hceq, ← hyceq]
          exact rowDrop_rowSet sc "end_filled" (endFilledCell sc)
            (canonicalRow_noEF sc (hcan sc hscdf))
        -- yf does not overlap yc
        have hnoov : overlapsCell yf yc = false := by
          have hk := hyc3.2
          cases hov : overlapsCell yf yc
          · rfl
          · exfalso
            have : (List.map (fun r => rowSet r "end_filled" (endFilledCell r))
                (List.filter (fun r => (rowGet r "calendar_event").notna) df.rows)).any
                (fun cal => overlapsCell cal yc) = true := by
              apply List.any_eq_true.mpr
              exact ⟨yf, hyf1, hov⟩
            rw [this] at hk
            simp at hk
        rw [← hyfeq, ← hyceq] at hnoov
        intro hspec
        rw [hfeq2, hceq2] at hspec
        have := (overlapsCell_spec rf sc (hcan rf hrfdf) (hcan sc hscdf)).mpr hspec
        rw [this] at hnoov
        simp at hnoov
    · -- f cannot come from a kept candidate row: xor
      have hyf3 := List.mem_filter.mp hyf2
      obtain ⟨sf, hsf, hyfeq⟩ := List.mem_map.mp hyf3.1
      have hsfdf := (List.mem_filter.mp hsf).1
      have hfeq2 : f = sf := by
        rw [← hfeq, ← hyfeq]
        exact rowDrop_rowSet sf "end_filled" (endFilledCell sf)
          (canonicalRow_noEF sf (hcan sf hsfdf))
      have hscrsf := (List.mem_filter.mp hsf).2
      have hcalf := bang_xor_elim _ _ (canonicalRow_xor sf (hcan sf hsfdf))
        (by exact hscrsf)
      rw [hfeq2] at hcal
      rw [hcal] at hcalf
      exact absurd hcalf (by simp)
  · intro r hr hcal
    apply List.mem_map.mpr
    refine ⟨rowSet r "end_filled" (endFilledCell r), ?_, ?_⟩
    · rw [mem_sortRowsByStart]
      apply List.mem_append.mpr
      left
      exact List.mem_map.mpr ⟨r, List.mem_filter.mpr ⟨hr, hcal⟩, rfl⟩
    · exact rowDrop_rowSet r "end_filled" (endFilledCell r)
        (canonicalRow_noEF r (hcan r hr))


/-- Witness for C1 at a concrete canonical table: one fixed commitment, one
overlapping candidate (dropped), one touching candidate (kept). -/
theorem c1_no_overlap_invariant_witness :
    (∀ r ∈ mergerDFW.rows, canonicalRow r = true) ∧
    ∃ out, remove_overlapping_events_optimized mergerDFW = .ok out ∧
      ((∀ f ∈ out.rows, ∀ c ∈ out.rows,
          (rowGet f "calendar_event").notna = true →
          (rowGet c "scraped_event").notna = true →
          ¬ specOverlapRows f c) ∧
       (∀ r ∈ mergerDFW.rows, (rowGet r "calendar_event").notna = true → r ∈ out.rows)) :=
  ⟨by decide, ⟨_, rfl, c1_no_overlap_invariant mergerDFW _ (by decide) rfl⟩⟩

end CMUBuilder
